import Mathlib

/-!
Verification of `media/base/widevine_encryption_key_source.cc`.

The development shallowly embeds the source file: C++ `std::string` values
(byte strings) become `List Nat` with each element below 256, `base::Value`
JSON trees become the `Json` inductive, the member map `encryption_key_map_`
becomes an association list threaded through the functions, and the
side-effecting loop in `FetchKeys` becomes a fuel-indexed recursion that also
records the observable trace (number of `Post` calls and the sleep durations).
External collaborators (the HTTP fetcher, the request signer and the JSON
reader, which the source uses through `base::JSONReader::Read`) are passed in
as function parameters.
-/

/-- Byte strings: the embedding of C++ `std::string` used as a byte buffer. -/
abbrev Bytes := List Nat

/-- Convert a Lean string literal to its byte representation (all source
literals are ASCII, so `Char.toNat` is the byte value). -/
def strBytes (s : String) : Bytes := s.toList.map Char.toNat

/-! ### Base64 (embedding of `base::Base64Encode` / `base::Base64Decode`) -/

/-- The base64 alphabet, as bytes. -/
def b64Alphabet : Bytes :=
  strBytes "ABCDEFGHIJKLMNOPQRSTUVWXYZabcdefghijklmnopqrstuvwxyz0123456789+/"

/-- Indexing into a byte list with a default (used for the alphabet lookup). -/
def nthByte : Bytes → Nat → Nat
  | [], _ => 65
  | a :: _, 0 => a
  | _ :: rest, k + 1 => nthByte rest k

/-- Encode one 6-bit group as its base64 alphabet byte. -/
def encB64 (k : Nat) : Nat := nthByte b64Alphabet k

/-- Position of byte `b` in a list, searching from index `i`. -/
def findIdxFrom : Bytes → Nat → Nat → Option Nat
  | [], _, _ => none
  | a :: rest, b, i => if a = b then some i else findIdxFrom rest b (i + 1)

/-- Decode one base64 alphabet byte back to its 6-bit group. -/
def decB64 (b : Nat) : Option Nat := findIdxFrom b64Alphabet b 0

/-- The padding byte of base64 output. -/
def padB64 : Nat := 61

/-- The ASCII single-quote byte, used in error messages of the source. -/
def quoteByte : Bytes := [39]

/-- Embedding of `base::Base64Encode`: standard base64 with padding. -/
def base64EncodeBytes : Bytes → Bytes
  | [] => []
  | [b0] => [encB64 (b0 / 4), encB64 (b0 % 4 * 16), padB64, padB64]
  | [b0, b1] =>
    [encB64 (b0 / 4), encB64 (b0 % 4 * 16 + b1 / 16), encB64 (b1 % 16 * 4), padB64]
  | b0 :: b1 :: b2 :: rest =>
    encB64 (b0 / 4) :: encB64 (b0 % 4 * 16 + b1 / 16) ::
      encB64 (b1 % 16 * 4 + b2 / 64) :: encB64 (b2 % 64) :: base64EncodeBytes rest

/-- Embedding of `base::Base64Decode`: the input length must be a multiple of
four, padding may appear only in the final group, and every data byte must be
in the alphabet; otherwise decoding fails. -/
def base64DecodeBytes : Bytes → Option Bytes
  | [] => some []
  | c0 :: c1 :: c2 :: c3 :: rest =>
    if rest = [] then
      if c2 = padB64 ∧ c3 = padB64 then
        match decB64 c0, decB64 c1 with
        | some k0, some k1 => some [k0 * 4 + k1 / 16]
        | _, _ => none
      else if c3 = padB64 then
        match decB64 c0, decB64 c1, decB64 c2 with
        | some k0, some k1, some k2 => some [k0 * 4 + k1 / 16, k1 % 16 * 16 + k2 / 4]
        | _, _, _ => none
      else
        match decB64 c0, decB64 c1, decB64 c2, decB64 c3 with
        | some k0, some k1, some k2, some k3 =>
          some [k0 * 4 + k1 / 16, k1 % 16 * 16 + k2 / 4, k2 % 4 * 64 + k3]
        | _, _, _, _ => none
    else
      match decB64 c0, decB64 c1, decB64 c2, decB64 c3, base64DecodeBytes rest with
      | some k0, some k1, some k2, some k3, some bs =>
        some ((k0 * 4 + k1 / 16) :: (k1 % 16 * 16 + k2 / 4) :: (k2 % 4 * 64 + k3) :: bs)
      | _, _, _, _, _ => none
  | _ => none

/-! ### JSON values (embedding of `base::Value` trees as produced by
`base::JSONReader::Read`), dictionaries and their accessors -/

/-- JSON values.  Object members are an association list of key/value pairs;
`base::DictionaryValue` stores members sorted by key, which `dictSet` below
maintains. -/
inductive Json where
  | null : Json
  | bool : Bool → Json
  | num : Int → Json
  | str : Bytes → Json
  | arr : List Json → Json
  | obj : List (Bytes × Json) → Json

/-- Members of a `base::DictionaryValue`. -/
abbrev JDict := List (Bytes × Json)

/-- Embedding of `base::Value::GetAsDictionary`. -/
def Json.getDict? : Json → Option JDict
  | Json.obj d => some d
  | _ => none

/-- Key lookup in a dictionary (`base::DictionaryValue::Get`; the keys used by
this source contain no dots, so path expansion never triggers). -/
def dictGet : JDict → Bytes → Option Json
  | [], _ => none
  | (k, v) :: rest, key => if key = k then some v else dictGet rest key

/-- Embedding of `base::DictionaryValue::GetString`: succeeds only when the key
is present and holds a string. -/
def dictGetString (d : JDict) (key : Bytes) : Option Bytes :=
  match dictGet d key with
  | some (Json.str s) => some s
  | _ => none

/-- Embedding of `base::DictionaryValue::GetList`. -/
def dictGetList (d : JDict) (key : Bytes) : Option (List Json) :=
  match dictGet d key with
  | some (Json.arr l) => some l
  | _ => none

/-- Embedding of `base::ListValue::GetDictionary`: succeeds only when index `i`
exists and holds a dictionary. -/
def listGetDictionary (l : List Json) (i : Nat) : Option JDict :=
  match l.get? i with
  | some (Json.obj d) => some d
  | _ => none

/-- Lexicographic byte-string order (`std::string` `operator<`), the key order
of `base::DictionaryValue`. -/
def bytesLt : Bytes → Bytes → Bool
  | [], [] => false
  | [], _ :: _ => true
  | _ :: _, [] => false
  | a :: as, b :: bs => if a < b then true else if a = b then bytesLt as bs else false

/-- Embedding of `base::DictionaryValue::SetString` / `Set`: insert keeping
members sorted by key, replacing an existing binding. -/
def dictSet : JDict → Bytes → Json → JDict
  | [], key, v => [(key, v)]
  | (k, v') :: rest, key, v =>
    if key = k then (key, v) :: rest
    else if bytesLt key k then (key, v) :: (k, v') :: rest
    else (k, v') :: dictSet rest key v

/-- Escape a byte for JSON string output (`base::JSONWriter`; the strings this
source serializes are base64 text, fixed labels and the signer name, for which
quote and backslash are the relevant escapes). -/
def jsonEscape : Bytes → Bytes
  | [] => []
  | b :: rest =>
    if b = 34 then 92 :: 34 :: jsonEscape rest
    else if b = 92 then 92 :: 92 :: jsonEscape rest
    else b :: jsonEscape rest

mutual

/-- Embedding of `base::JSONWriter::Write` (compact output). -/
def jsonWrite : Json → Bytes
  | Json.null => strBytes "null"
  | Json.bool b => if b then strBytes "true" else strBytes "false"
  | Json.num n => strBytes (toString n)
  | Json.str s => 34 :: (jsonEscape s ++ [34])
  | Json.arr l => 91 :: (jsonWriteElems l ++ [93])
  | Json.obj d => 123 :: (jsonWriteMembers d ++ [125])

/-- Comma-separated serialization of array elements. -/
def jsonWriteElems : List Json → Bytes
  | [] => []
  | [j] => jsonWrite j
  | j :: rest => jsonWrite j ++ (44 :: jsonWriteElems rest)

/-- Comma-separated serialization of object members. -/
def jsonWriteMembers : JDict → Bytes
  | [] => []
  | [(k, v)] => 34 :: (jsonEscape k ++ (34 :: 58 :: jsonWrite v))
  | (k, v) :: rest =>
    (34 :: (jsonEscape k ++ (34 :: 58 :: jsonWrite v))) ++ (44 :: jsonWriteMembers rest)

end

/-! ### Track types and the key store -/

/-- Embedding of the `TrackType` enum (`TRACK_TYPE_SD`, `TRACK_TYPE_HD`,
`TRACK_TYPE_AUDIO`, with the `TRACK_TYPE_UNKNOWN` sentinel). -/
inductive TrackType where
  | sd : TrackType
  | hd : TrackType
  | audio : TrackType
  | unknown : TrackType
  deriving DecidableEq, Repr

/-- Modelled from the spec: `NUM_VALID_TRACK_TYPES` is declared in the
encryption key source header, which is not part of the provided source; the
spec fixes exactly three valid track categories. -/
def numValidTrackTypes : Nat := 3

/-- Modelled from the spec: `GetTrackTypeFromString` lives in the encryption
key source base file, which is not part of the provided source.  The spec maps
the labels "SD", "HD" and "AUDIO" to their track types and any other label to
the `UNKNOWN` sentinel. -/
def getTrackTypeFromString (s : Bytes) : TrackType :=
  if s = strBytes "SD" then TrackType.sd
  else if s = strBytes "HD" then TrackType.hd
  else if s = strBytes "AUDIO" then TrackType.audio
  else TrackType.unknown

/-- Modelled from the spec: `TrackTypeToString` lives in the encryption key
source base file, which is not part of the provided source; it renders each
track type as its label (used only inside an error message). -/
def trackTypeToString : TrackType → Bytes
  | TrackType.sd => strBytes "SD"
  | TrackType.hd => strBytes "HD"
  | TrackType.audio => strBytes "AUDIO"
  | TrackType.unknown => strBytes "UNKNOWN"

/-- Embedding of `EncryptionKey` (key, key id and pssh box, all byte
strings). -/
structure EncryptionKey where
  key : Bytes
  key_id : Bytes
  pssh : Bytes
  deriving DecidableEq, Repr

/-- Modelled from the spec: `PsshBoxFromPsshData` is an external transform
(wrapping pssh data into a protection descriptor box) declared outside the
provided source; it is embedded as an arbitrary fixed injective wrapping, whose
exact shape no claim depends on. -/
def psshBoxFromPsshData (pssh_data : Bytes) : Bytes := 0 :: pssh_data

/-- Embedding of the member `encryption_key_map_`
(`std::map<TrackType, EncryptionKey*>`). -/
abbrev KeyMap := List (TrackType × EncryptionKey)

/-- Embedding of `std::map::find` on the key map. -/
def mapFind : KeyMap → TrackType → Option EncryptionKey
  | [], _ => none
  | (t, k) :: rest, t' => if t' = t then some k else mapFind rest t'

/-- Embedding of `encryption_key_map_[track_type] = ...` (insert or assign). -/
def mapInsert : KeyMap → TrackType → EncryptionKey → KeyMap
  | [], t, k => [(t, k)]
  | (t', k') :: rest, t, k =>
    if t = t' then (t, k) :: rest else (t', k') :: mapInsert rest t k

/-! ### Status values and external collaborators -/

/-- Error codes used by this source (`error::INTERNAL_ERROR`,
`error::SERVER_ERROR`; `ok` is the zero code of `Status::OK`). -/
inductive ErrorCode where
  | ok : ErrorCode
  | internalError : ErrorCode
  | serverError : ErrorCode
  deriving DecidableEq, Repr

/-- Embedding of `Status` (error code plus message). -/
structure Status where
  error_code : ErrorCode
  error_message : Bytes
  deriving DecidableEq, Repr

/-- Embedding of `Status::OK`. -/
def Status.OK : Status := ⟨ErrorCode.ok, []⟩

/-- Embedding of the `RequestSigner` collaborator: `GenerateSignature` (with
`none` for its failure return) and `signer_name`. -/
structure Signer where
  generateSignature : Bytes → Option Bytes
  signer_name : Bytes

/-- The license status denoting success (`kLicenseStatusOK`). -/
def kLicenseStatusOK : Bytes := strBytes "OK"

/-- The license status denoting a transient server error
(`kLicenseStatusTransientError`). -/
def kLicenseStatusTransientError : Bytes := strBytes "INTERNAL_ERROR"

/-- Embedding of `kNumTransientErrorRetries`. -/
def kNumTransientErrorRetries : Nat := 5

/-- Embedding of `kFirstRetryDelayMilliseconds`. -/
def kFirstRetryDelayMilliseconds : Nat := 1000

/-! ### License extraction (`GetKeyAndKeyId`, `GetPsshData`,
`ExtractEncryptionKey`) -/

/-- Embedding of `GetKeyAndKeyId`: read the "key" and "key_id" fields of a
track dictionary as base64 strings and decode both; any missing field or
decode failure fails. -/
def getKeyAndKeyId (track_dict : JDict) : Option (Bytes × Bytes) :=
  match dictGetString track_dict (strBytes "key") with
  | none => none
  | some key_base64 =>
    match base64DecodeBytes key_base64 with
    | none => none
    | some key =>
      match dictGetString track_dict (strBytes "key_id") with
      | none => none
      | some key_id_base64 =>
        match base64DecodeBytes key_id_base64 with
        | none => none
        | some key_id => some (key, key_id)

/-- Embedding of `GetPsshData`: read the "pssh" list and its entry 0 (the
`DCHECK_EQ(1u, pssh_list->GetSize())` is a debug-only assertion, a no-op in
release builds; entries past the first are never read), require
`drm_type == "WIDEVINE"`, then decode the "data" field. -/
def getPsshData (track_dict : JDict) : Option Bytes :=
  match dictGetList track_dict (strBytes "pssh") with
  | none => none
  | some pssh_list =>
    match listGetDictionary pssh_list 0 with
    | none => none
    | some pssh_dict =>
      match dictGetString pssh_dict (strBytes "drm_type") with
      | none => none
      | some drm_type =>
        if drm_type = strBytes "WIDEVINE" then
          match dictGetString pssh_dict (strBytes "data") with
          | none => none
          | some data_base64 => base64DecodeBytes data_base64
        else none

/-- Embedding of the per-track loop body of `ExtractEncryptionKey` (lines
293-311): each entry must be a dictionary with a "type" string; the
`DCHECK_NE(TRACK_TYPE_UNKNOWN, track_type)` is a debug-only assertion, a no-op
in release builds; the `RCHECK` on `find` rejects a type already present;
each successfully parsed key is assigned into the map immediately before the
next entry is processed. -/
def processTracks : List Json → KeyMap → Bool × KeyMap
  | [], m => (true, m)
  | t :: rest, m =>
    match t.getDict? with
    | none => (false, m)
    | some track_dict =>
      match dictGetString track_dict (strBytes "type") with
      | none => (false, m)
      | some track_type_str =>
        match mapFind m (getTrackTypeFromString track_type_str) with
        | some _ => (false, m)
        | none =>
          match getKeyAndKeyId track_dict with
          | none => (false, m)
          | some kk =>
            match getPsshData track_dict with
            | none => (false, m)
            | some pssh_data =>
              processTracks rest
                (mapInsert m (getTrackTypeFromString track_type_str)
                  ⟨kk.1, kk.2, psshBoxFromPsshData pssh_data⟩)

/-- Result of `ExtractEncryptionKey`: the boolean return, the value written to
`*transient_error`, and the (possibly mutated) `encryption_key_map_`. -/
structure ExtractResult where
  success : Bool
  transient : Bool
  map : KeyMap
  deriving DecidableEq, Repr

/-- Embedding of `ExtractEncryptionKey`.  `jsonRead` is the external
`base::JSONReader::Read` collaborator; `m` is `encryption_key_map_` on entry.
`*transient_error` is initialized to false and set exactly on a non-OK license
status equal to the transient sentinel. -/
def extractEncryptionKey (jsonRead : Bytes → Option Json) (response : Bytes)
    (m : KeyMap) : ExtractResult :=
  match jsonRead response with
  | none => ⟨false, false, m⟩
  | some root =>
    match root.getDict? with
    | none => ⟨false, false, m⟩
    | some license_dict =>
      match dictGetString license_dict (strBytes "status") with
      | none => ⟨false, false, m⟩
      | some license_status =>
        if license_status = kLicenseStatusOK then
          match dictGetList license_dict (strBytes "tracks") with
          | none => ⟨false, false, m⟩
          | some tracks =>
            if numValidTrackTypes ≤ tracks.length then
              ⟨(processTracks tracks m).1, false, (processTracks tracks m).2⟩
            else ⟨false, false, m⟩
        else ⟨false, decide (license_status = kLicenseStatusTransientError), m⟩

/-- Embedding of `DecodeResponse`: parse the raw response as JSON, require a
dictionary with a string field "response", and base64-decode it. -/
def decodeResponse (jsonRead : Bytes → Option Json) (raw_response : Bytes) :
    Option Bytes :=
  match jsonRead raw_response with
  | none => none
  | some root =>
    match root.getDict? with
    | none => none
    | some response_dict =>
      match dictGetString response_dict (strBytes "response") with
      | none => none
      | some response_base64 => base64DecodeBytes response_base64

/-! ### Request construction (`FillRequest`, `SignRequest`) -/

/-- Embedding of `FillRequest` up to serialization: the `base::DictionaryValue`
built from the content id (fields inserted in source order: "content_id",
"policy", "tracks", "drm_types"; the dictionary keeps keys sorted). -/
def fillRequestValue (content_id : Bytes) : Json :=
  let d := dictSet [] (strBytes "content_id") (Json.str (base64EncodeBytes content_id))
  let d := dictSet d (strBytes "policy") (Json.str (strBytes ""))
  let tracks := [Json.obj (dictSet [] (strBytes "type") (Json.str (strBytes "SD"))),
                 Json.obj (dictSet [] (strBytes "type") (Json.str (strBytes "HD"))),
                 Json.obj (dictSet [] (strBytes "type") (Json.str (strBytes "AUDIO")))]
  let d := dictSet d (strBytes "tracks") (Json.arr tracks)
  let d := dictSet d (strBytes "drm_types") (Json.arr [Json.str (strBytes "WIDEVINE")])
  Json.obj d

/-- Embedding of `FillRequest` (the serialized request document). -/
def fillRequest (content_id : Bytes) : Bytes := jsonWrite (fillRequestValue content_id)

/-- Embedding of `SignRequest` up to serialization: sign the raw request,
base64-encode request and signature, and build the envelope dictionary. -/
def signRequestValue (signer : Signer) (request : Bytes) : Except Status Json :=
  match signer.generateSignature request with
  | none => Except.error ⟨ErrorCode.internalError, strBytes "Signature generation failed."⟩
  | some signature =>
    let d := dictSet [] (strBytes "request") (Json.str (base64EncodeBytes request))
    let d := dictSet d (strBytes "signature") (Json.str (base64EncodeBytes signature))
    let d := dictSet d (strBytes "signer") (Json.str signer.signer_name)
    Except.ok (Json.obj d)

/-- Embedding of `SignRequest` (the serialized signed message). -/
def signRequest (signer : Signer) (request : Bytes) : Except Status Bytes :=
  match signRequestValue signer request with
  | Except.error st => Except.error st
  | Except.ok env => Except.ok (jsonWrite env)

/-! ### The fetch loop (`FetchKeys`) and `GetKey` -/

/-- Observable outcome of one `FetchKeys` run: the returned status, the final
`encryption_key_map_`, the sleep durations performed (in order, milliseconds)
and the number of `Post` calls made. -/
structure FetchResult where
  status : Status
  map : KeyMap
  sleeps : List Nat
  posts : Nat
  deriving DecidableEq, Repr

/-- Embedding of the retry loop of `FetchKeys` (lines 154-184).  `fuel` is the
number of loop iterations left (`kNumTransientErrorRetries - i`); `i` is the
loop counter; `sleep_duration` the current backoff delay; `sleeps` and `posts`
accumulate the observable trace.  `post` is the external
`http_fetcher_->Post` collaborator, given the attempt index and message. -/
def fetchLoop (jsonRead : Bytes → Option Json) (post : Nat → Bytes → Status × Bytes)
    (message : Bytes) : Nat → Nat → Nat → KeyMap → List Nat → Nat → FetchResult
  | 0, _, _, m, sleeps, posts =>
    ⟨⟨ErrorCode.serverError, strBytes "Failed to recover from server internal error."⟩,
      m, sleeps, posts⟩
  | fuel + 1, i, sleep_duration, m, sleeps, posts =>
    let st := (post i message).1
    let raw_response := (post i message).2
    if st.error_code = ErrorCode.ok then
      match decodeResponse jsonRead raw_response with
      | none =>
        ⟨⟨ErrorCode.serverError,
            strBytes "Failed to decode response " ++ quoteByte ++ raw_response ++
              quoteByte ++ strBytes "."⟩,
          m, sleeps, posts + 1⟩
      | some response =>
        let r := extractEncryptionKey jsonRead response m
        if r.success then ⟨Status.OK, r.map, sleeps, posts + 1⟩
        else if r.transient then
          if i ≠ kNumTransientErrorRetries - 1 then
            fetchLoop jsonRead post message fuel (i + 1) (sleep_duration * 2) r.map
              (sleeps ++ [sleep_duration]) (posts + 1)
          else
            fetchLoop jsonRead post message fuel (i + 1) sleep_duration r.map
              sleeps (posts + 1)
        else
          ⟨⟨ErrorCode.serverError,
              strBytes "Failed to extract encryption key from " ++ quoteByte ++ response ++
                quoteByte ++ strBytes "."⟩,
            r.map, sleeps, posts + 1⟩
    else ⟨st, m, sleeps, posts + 1⟩

/-- Embedding of `FetchKeys`: build and sign the request, then run the retry
loop (5 iterations of fuel, starting at attempt 0 with a 1000 ms delay). -/
def fetchKeys (jsonRead : Bytes → Option Json) (signer : Signer) (content_id : Bytes)
    (post : Nat → Bytes → Status × Bytes) (m : KeyMap) : FetchResult :=
  let request := fillRequest content_id
  match signRequest signer request with
  | Except.error st => ⟨st, m, [], 0⟩
  | Except.ok message =>
    fetchLoop jsonRead post message kNumTransientErrorRetries 0
      kFirstRetryDelayMilliseconds m [] 0

/-- The object state relevant to `GetKey`: the `key_fetched_` flag and
`encryption_key_map_`. -/
structure SourceState where
  key_fetched : Bool
  encryption_key_map : KeyMap
  deriving DecidableEq, Repr

/-- Observable outcome of one `GetKey` call: the returned status, the value
written through the `EncryptionKey*` out-parameter (`none` when it is never
assigned), the resulting object state, and whether this call invoked
`FetchKeys`. -/
structure GetKeyResult where
  status : Status
  keyOut : Option EncryptionKey
  state : SourceState
  ranFetch : Bool
  deriving DecidableEq, Repr

/-- Embedding of the lookup tail of `GetKey` (lines 124-131): propagate a
non-OK status; otherwise look the track type up in the map, failing with
`error::INTERNAL_ERROR` when absent and copying the key out when present. -/
def finishLookup (status : Status) (s1 : SourceState) (ran : Bool)
    (track_type : TrackType) : GetKeyResult :=
  if status.error_code = ErrorCode.ok then
    match mapFind s1.encryption_key_map track_type with
    | none =>
      ⟨⟨ErrorCode.internalError,
          strBytes "Cannot find key of type " ++ trackTypeToString track_type⟩,
        none, s1, ran⟩
    | some k => ⟨Status.OK, some k, s1, ran⟩
  else ⟨status, none, s1, ran⟩

/-- Embedding of `GetKey` (single-threaded view of the double-checked lock):
when `key_fetched_` is set the default-constructed OK status flows straight to
the lookup; otherwise `FetchKeys` runs and `key_fetched_` is set only when it
returned OK. -/
def getKey (jsonRead : Bytes → Option Json) (signer : Signer) (content_id : Bytes)
    (post : Nat → Bytes → Status × Bytes) (s : SourceState) (track_type : TrackType) :
    GetKeyResult :=
  if s.key_fetched then finishLookup Status.OK s false track_type
  else
    if (fetchKeys jsonRead signer content_id post s.encryption_key_map).status.error_code =
        ErrorCode.ok then
      finishLookup (fetchKeys jsonRead signer content_id post s.encryption_key_map).status
        ⟨true, (fetchKeys jsonRead signer content_id post s.encryption_key_map).map⟩
        true track_type
    else
      finishLookup (fetchKeys jsonRead signer content_id post s.encryption_key_map).status
        ⟨false, (fetchKeys jsonRead signer content_id post s.encryption_key_map).map⟩
        true track_type

/-! ### Projection helpers used in theorem statements -/

/-- The "status" field of the license document a response parses to. -/
def licenseStatus (jsonRead : Bytes → Option Json) (response : Bytes) : Option Bytes :=
  match jsonRead response with
  | none => none
  | some root =>
    match root.getDict? with
    | none => none
    | some license_dict => dictGetString license_dict (strBytes "status")

/-- The "tracks" list of the license document a response parses to. -/
def licenseTracks (jsonRead : Bytes → Option Json) (response : Bytes) :
    Option (List Json) :=
  match jsonRead response with
  | none => none
  | some root =>
    match root.getDict? with
    | none => none
    | some license_dict => dictGetList license_dict (strBytes "tracks")

/-- The track type that the "type" label of a track entry maps to. -/
def entryTrackType (t : Json) : Option TrackType :=
  match t.getDict? with
  | none => none
  | some track_dict =>
    match dictGetString track_dict (strBytes "type") with
    | none => none
    | some s => some (getTrackTypeFromString s)

/-- The sleep durations the retry loop performs from a given remaining fuel and
current delay when every extraction reports a transient error. -/
def transientSleeps : Nat → Nat → List Nat
  | 0, _ => []
  | 1, _ => []
  | fuel + 2, dur => dur :: transientSleeps (fuel + 1) (dur * 2)

/-- Reading a string field through the top-level JSON value. -/
def jsonGetString (j : Json) (key : Bytes) : Option Bytes :=
  match j.getDict? with
  | none => none
  | some d => dictGetString d key

/-! ### Concrete documents used by witnesses and counterexamples -/

/-- A track entry with the given label and valid key material ("AAAA" decodes
to three zero bytes). -/
def exTrackEntry (label : String) : Json :=
  Json.obj [(strBytes "key", Json.str (strBytes "AAAA")),
            (strBytes "key_id", Json.str (strBytes "AAAA")),
            (strBytes "pssh", Json.arr [Json.obj
              [(strBytes "data", Json.str (strBytes "AAAA")),
               (strBytes "drm_type", Json.str (strBytes "WIDEVINE"))]]),
            (strBytes "type", Json.str (strBytes label))]

/-- The encryption key that `exTrackEntry` parses to. -/
def exKey : EncryptionKey := ⟨[0, 0, 0], [0, 0, 0], [0, 0, 0, 0]⟩

/-- An OK license whose second track entry lacks the "key" field. -/
def c1Doc : Json :=
  Json.obj [(strBytes "status", Json.str (strBytes "OK")),
            (strBytes "tracks", Json.arr [exTrackEntry "SD",
              Json.obj [(strBytes "type", Json.str (strBytes "HD"))], Json.null])]

/-- A license whose status is the transient sentinel. -/
def c1TransientDoc : Json :=
  Json.obj [(strBytes "status", Json.str (strBytes "INTERNAL_ERROR"))]

/-- A one-entry key map used to witness frame preservation. -/
def c1Map : KeyMap := [(TrackType.sd, ⟨[1], [2], [3]⟩)]

/-- An OK license with an unmapped track label next to two valid ones. -/
def c3Doc : Json :=
  Json.obj [(strBytes "status", Json.str (strBytes "OK")),
            (strBytes "tracks", Json.arr
              [exTrackEntry "FOO", exTrackEntry "SD", exTrackEntry "HD"])]

/-- An OK license with the three valid track entries. -/
def c3GoodDoc : Json :=
  Json.obj [(strBytes "status", Json.str (strBytes "OK")),
            (strBytes "tracks", Json.arr
              [exTrackEntry "SD", exTrackEntry "HD", exTrackEntry "AUDIO"])]

/-- The envelope document of the transient-loop witness: its "response" field
is the base64 of the single byte 76. -/
def c4EnvDoc : Json := Json.obj [(strBytes "response", Json.str (strBytes "TA=="))]

/-- The license document of the transient-loop witness. -/
def c4LicDoc : Json := Json.obj [(strBytes "status", Json.str (strBytes "INTERNAL_ERROR"))]

/-- The JSON reader of the transient-loop witness: the raw response parses to
the envelope, the decoded license bytes parse to the transient license. -/
def c4Jr : Bytes → Option Json := fun b =>
  if b = strBytes "R" then some c4EnvDoc
  else if b = [76] then some c4LicDoc
  else none

/-- An SD track entry whose "pssh" list has two entries, the first valid. -/
def c5SdEntry : Json :=
  Json.obj [(strBytes "key", Json.str (strBytes "AAAA")),
            (strBytes "key_id", Json.str (strBytes "AAAA")),
            (strBytes "pssh", Json.arr [Json.obj
              [(strBytes "data", Json.str (strBytes "AAAA")),
               (strBytes "drm_type", Json.str (strBytes "WIDEVINE"))],
              Json.null]),
            (strBytes "type", Json.str (strBytes "SD"))]

/-- An OK license whose SD entry carries the two-entry pssh list. -/
def c5Doc : Json :=
  Json.obj [(strBytes "status", Json.str (strBytes "OK")),
            (strBytes "tracks", Json.arr
              [c5SdEntry, exTrackEntry "HD", exTrackEntry "AUDIO"])]

/-- A track dictionary whose single pssh entry carries a foreign drm type. -/
def c5OtherDrmDict : JDict :=
  [(strBytes "pssh", Json.arr [Json.obj
    [(strBytes "data", Json.str (strBytes "AAAA")),
     (strBytes "drm_type", Json.str (strBytes "OTHER"))]])]

/-- A license with a non-OK, non-transient status. -/
def c7Jr : Bytes → Option Json := fun _ =>
  some (Json.obj [(strBytes "status", Json.str (strBytes "INTERNAL_ERROR"))])

/-- A signer that always signs with an empty signature. -/
def exSigner : Signer := ⟨fun _ => some [], []⟩

/-- A transport that always fails at the transport level. -/
def exFailPost : Nat → Bytes → Status × Bytes :=
  fun _ _ => (⟨ErrorCode.serverError, []⟩, [])

theorem decB64_encB64 : ∀ k, k < 64 → decB64 (encB64 k) = some k := by decide

theorem nthByte_of_length_le : ∀ (l : Bytes) (k : Nat), l.length ≤ k → nthByte l k = 65 := by
  intro l
  induction l with
  | nil => intro k _; cases k <;> rfl
  | cons a rest ih =>
    intro k hk
    cases k with
    | zero => simp at hk
    | succ k' => exact ih k' (by simpa using hk)

theorem encB64_ne_pad (k : Nat) : encB64 k ≠ padB64 := by
  rcases Nat.lt_or_ge k 64 with h | h
  · exact (by decide : ∀ m, m < 64 → encB64 m ≠ padB64) k h
  · unfold encB64
    rw [nthByte_of_length_le b64Alphabet k (le_trans (le_of_eq (by decide)) h)]
    decide

theorem base64EncodeBytes_ne_nil : ∀ bs : Bytes, bs ≠ [] → base64EncodeBytes bs ≠ [] := by
  intro bs h
  match bs with
  | [] => exact absurd rfl h
  | [b0] => simp [base64EncodeBytes]
  | [b0, b1] => simp [base64EncodeBytes]
  | b0 :: b1 :: b2 :: rest => simp [base64EncodeBytes]

/-- Decoding inverts encoding on genuine byte strings. -/
theorem base64_roundtrip : ∀ bs : Bytes, (∀ b ∈ bs, b < 256) →
    base64DecodeBytes (base64EncodeBytes bs) = some bs
  | [], _ => rfl
  | [b0], h => by
    have hb0 : b0 < 256 := h b0 (by simp)
    simp only [base64EncodeBytes, base64DecodeBytes, and_self, if_true]
    rw [decB64_encB64 (b0 / 4) (by omega), decB64_encB64 (b0 % 4 * 16) (by omega)]
    simp only [Option.some.injEq, List.cons.injEq, and_true]
    omega
  | [b0, b1], h => by
    have hb0 : b0 < 256 := h b0 (by simp)
    have hb1 : b1 < 256 := h b1 (by simp)
    simp only [base64EncodeBytes, base64DecodeBytes, and_true, if_true]
    rw [if_neg (encB64_ne_pad (b1 % 16 * 4))]
    rw [decB64_encB64 (b0 / 4) (by omega), decB64_encB64 (b0 % 4 * 16 + b1 / 16) (by omega),
      decB64_encB64 (b1 % 16 * 4) (by omega)]
    simp only [Option.some.injEq, List.cons.injEq, and_true]
    omega
  | b0 :: b1 :: b2 :: rest, h => by
    have hb0 : b0 < 256 := h b0 (by simp)
    have hb1 : b1 < 256 := h b1 (by simp)
    have hb2 : b2 < 256 := h b2 (by simp)
    have hrest : ∀ b ∈ rest, b < 256 := fun b hb => h b (by simp [hb])
    have ih := base64_roundtrip rest hrest
    rcases Decidable.em (rest = []) with hnil | hnil
    · subst hnil
      simp only [base64EncodeBytes, base64DecodeBytes, if_true]
      rw [if_neg (fun hc => encB64_ne_pad (b1 % 16 * 4 + b2 / 64) hc.1),
        if_neg (encB64_ne_pad (b2 % 64))]
      rw [decB64_encB64 (b0 / 4) (by omega), decB64_encB64 (b0 % 4 * 16 + b1 / 16) (by omega),
        decB64_encB64 (b1 % 16 * 4 + b2 / 64) (by omega), decB64_encB64 (b2 % 64) (by omega)]
      simp only [Option.some.injEq, List.cons.injEq, and_true]
      exact ⟨by omega, by omega, by omega⟩
    · simp only [base64EncodeBytes, base64DecodeBytes]
      rw [if_neg (base64EncodeBytes_ne_nil rest hnil)]
      rw [decB64_encB64 (b0 / 4) (by omega), decB64_encB64 (b0 % 4 * 16 + b1 / 16) (by omega),
        decB64_encB64 (b1 % 16 * 4 + b2 / 64) (by omega), decB64_encB64 (b2 % 64) (by omega)]
      rw [ih]
      simp only [Option.some.injEq, List.cons.injEq]
      exact ⟨by omega, by omega, by omega, trivial⟩

theorem mapFind_mapInsert (m : KeyMap) (t t' : TrackType) (k : EncryptionKey) :
    mapFind (mapInsert m t k) t' = if t' = t then some k else mapFind m t' := by
  induction m with
  | nil => simp [mapInsert, mapFind]
  | cons hd tl ih =>
    obtain ⟨t0, k0⟩ := hd
    by_cases h1 : t = t0
    · subst h1
      by_cases h2 : t' = t <;> simp [mapInsert, mapFind, h2]
    · by_cases h2 : t' = t0
      · have h3 : ¬t' = t := fun hh => h1 (hh.symm.trans h2)
        have h4 : ¬t0 = t := fun hh => h1 hh.symm
        simp [mapInsert, mapFind, h1, h2, h3, h4]
      · simp [mapInsert, mapFind, h1, h2, ih]

/-! ### Helper lemmas -/

theorem processTracks_mono : ∀ (ts : List Json) (m : KeyMap) (t : TrackType)
    (ek : EncryptionKey), mapFind m t = some ek →
    mapFind (processTracks ts m).2 t = some ek := by
  intro ts
  induction ts with
  | nil => intro m t ek h; simpa [processTracks] using h
  | cons e rest ih =>
    intro m t ek h
    cases hd : e.getDict? with
    | none => simpa [processTracks, hd] using h
    | some td =>
      cases hty : dictGetString td (strBytes "type") with
      | none => simpa [processTracks, hd, hty] using h
      | some tys =>
        cases hf : mapFind m (getTrackTypeFromString tys) with
        | some k0 => simpa [processTracks, hd, hty, hf] using h
        | none =>
          cases hkk : getKeyAndKeyId td with
          | none => simpa [processTracks, hd, hty, hf, hkk] using h
          | some kk =>
            cases hp : getPsshData td with
            | none => simpa [processTracks, hd, hty, hf, hkk, hp] using h
            | some pd =>
              have hne : ¬t = getTrackTypeFromString tys := by
                intro hh
                rw [hh] at h
                rw [h] at hf
                cases hf
              have hins : mapFind (mapInsert m (getTrackTypeFromString tys)
                  ⟨kk.1, kk.2, psshBoxFromPsshData pd⟩) t = some ek := by
                rw [mapFind_mapInsert, if_neg hne]
                exact h
              have hres := ih _ t ek hins
              simpa [processTracks, hd, hty, hf, hkk, hp] using hres

theorem processTracks_success_spec : ∀ (ts : List Json) (m : KeyMap),
    (processTracks ts m).1 = true →
    (∀ e ∈ ts, ∃ tt, entryTrackType e = some tt ∧ mapFind m tt = none) ∧
      (ts.map entryTrackType).Nodup := by
  intro ts
  induction ts with
  | nil => intro m _; exact ⟨by simp, by simp⟩
  | cons e rest ih =>
    intro m hsucc
    cases hd : e.getDict? with
    | none => simp [processTracks, hd] at hsucc
    | some td =>
      cases hty : dictGetString td (strBytes "type") with
      | none => simp [processTracks, hd, hty] at hsucc
      | some tys =>
        cases hf : mapFind m (getTrackTypeFromString tys) with
        | some k0 => simp [processTracks, hd, hty, hf] at hsucc
        | none =>
          cases hkk : getKeyAndKeyId td with
          | none => simp [processTracks, hd, hty, hf, hkk] at hsucc
          | some kk =>
            cases hp : getPsshData td with
            | none => simp [processTracks, hd, hty, hf, hkk, hp] at hsucc
            | some pd =>
              have hsucc' : (processTracks rest (mapInsert m (getTrackTypeFromString tys)
                  ⟨kk.1, kk.2, psshBoxFromPsshData pd⟩)).1 = true := by
                simpa [processTracks, hd, hty, hf, hkk, hp] using hsucc
              obtain ⟨hall, hnodup⟩ := ih _ hsucc'
              have hEq : entryTrackType e = some (getTrackTypeFromString tys) := by
                simp [entryTrackType, hd, hty]
              constructor
              · intro x hx
                rcases List.mem_cons.mp hx with rfl | hx'
                · exact ⟨getTrackTypeFromString tys, hEq, hf⟩
                · obtain ⟨tt, htt, hfind⟩ := hall x hx'
                  refine ⟨tt, htt, ?_⟩
                  rw [mapFind_mapInsert] at hfind
                  by_cases hcase : tt = getTrackTypeFromString tys
                  · rw [if_pos hcase] at hfind; cases hfind
                  · rwa [if_neg hcase] at hfind
              · rw [List.map_cons, List.nodup_cons]
                refine ⟨?_, hnodup⟩
                intro hmem
                obtain ⟨x, hx, hex⟩ := List.mem_map.mp hmem
                obtain ⟨tt, htt, hfind⟩ := hall x hx
                rw [htt, hEq] at hex
                have htteq : tt = getTrackTypeFromString tys := by
                  exact Option.some.inj hex
                rw [mapFind_mapInsert, if_pos htteq] at hfind
                cases hfind

theorem extract_transient (jsonRead : Bytes → Option Json) (response : Bytes)
    (m : KeyMap)
    (h : licenseStatus jsonRead response = some kLicenseStatusTransientError) :
    extractEncryptionKey jsonRead response m = ⟨false, true, m⟩ := by
  unfold licenseStatus at h
  cases hr : jsonRead response with
  | none => rw [hr] at h; cases h
  | some root =>
    simp only [hr] at h
    cases hdict : root.getDict? with
    | none => simp only [hdict] at h; cases h
    | some license_dict =>
      simp only [hdict] at h
      unfold extractEncryptionKey
      simp only [hr, hdict, h]
      rw [if_neg (by decide : ¬(kLicenseStatusTransientError = kLicenseStatusOK))]
      simp

theorem fetchLoop_all_transient (jsonRead : Bytes → Option Json)
    (post : Nat → Bytes → Status × Bytes) (message : Bytes)
    (hpost : ∀ i body, (post i body).1.error_code = ErrorCode.ok ∧
      ∃ lic, decodeResponse jsonRead (post i body).2 = some lic ∧
        licenseStatus jsonRead lic = some kLicenseStatusTransientError) :
    ∀ (fuel i dur : Nat) (m : KeyMap) (sleeps : List Nat) (posts : Nat),
      i + fuel = kNumTransientErrorRetries →
      fetchLoop jsonRead post message fuel i dur m sleeps posts =
        ⟨⟨ErrorCode.serverError, strBytes "Failed to recover from server internal error."⟩,
          m, sleeps ++ transientSleeps fuel dur, posts + fuel⟩ := by
  intro fuel
  induction fuel with
  | zero =>
    intro i dur m sleeps posts hinv
    simp [fetchLoop, transientSleeps]
  | succ f ihf =>
    intro i dur m sleeps posts hinv
    obtain ⟨hok, lic, hdec, hlic⟩ := hpost i message
    have hex := extract_transient jsonRead lic m hlic
    have h5 : kNumTransientErrorRetries = 5 := rfl
    simp only [fetchLoop, hok, if_true, hdec, hex]
    by_cases hi : i = kNumTransientErrorRetries - 1
    · have hf0 : f = 0 := by omega
      subst hf0
      rw [if_neg (not_not_intro hi)]
      simp [fetchLoop, transientSleeps]
    · have hne : i ≠ kNumTransientErrorRetries - 1 := hi
      rw [if_pos hne]
      rw [ihf (i + 1) (dur * 2) m (sleeps ++ [dur]) (posts + 1) (by omega)]
      have hf1 : ∃ f', f = f' + 1 := ⟨f - 1, by omega⟩
      obtain ⟨f', rfl⟩ := hf1
      simp [transientSleeps]
      omega

theorem extract_shape (jsonRead : Bytes → Option Json) (response : Bytes) (m : KeyMap) :
    ((extractEncryptionKey jsonRead response m).success = false ∧
      (extractEncryptionKey jsonRead response m).map = m) ∨
    (∃ tracks, licenseTracks jsonRead response = some tracks ∧
      (extractEncryptionKey jsonRead response m).success = (processTracks tracks m).1 ∧
      (extractEncryptionKey jsonRead response m).transient = false ∧
      (extractEncryptionKey jsonRead response m).map = (processTracks tracks m).2) := by
  cases hr : jsonRead response with
  | none => left; constructor <;> simp [extractEncryptionKey, hr]
  | some root =>
    cases hdict : root.getDict? with
    | none => left; constructor <;> simp [extractEncryptionKey, hr, hdict]
    | some license_dict =>
      cases hst : dictGetString license_dict (strBytes "status") with
      | none => left; constructor <;> simp [extractEncryptionKey, hr, hdict, hst]
      | some license_status =>
        by_cases hok : license_status = kLicenseStatusOK
        · cases htr : dictGetList license_dict (strBytes "tracks") with
          | none =>
            left; constructor <;> simp [extractEncryptionKey, hr, hdict, hst, hok, htr]
          | some tracks =>
            by_cases hlen : numValidTrackTypes ≤ tracks.length
            · right
              refine ⟨tracks, ?_, ?_, ?_, ?_⟩ <;>
                simp [extractEncryptionKey, licenseTracks, hr, hdict, hst, hok, htr, hlen]
            · left; constructor <;>
                simp [extractEncryptionKey, hr, hdict, hst, hok, htr, hlen]
        · left; constructor <;> simp [extractEncryptionKey, hr, hdict, hst, hok]

theorem finishLookup_state (status : Status) (s1 : SourceState) (ran : Bool)
    (track_type : TrackType) :
    (finishLookup status s1 ran track_type).state = s1 ∧
      (finishLookup status s1 ran track_type).ranFetch = ran := by
  unfold finishLookup
  by_cases h : status.error_code = ErrorCode.ok
  · rw [if_pos h]
    cases mapFind s1.encryption_key_map track_type <;> exact ⟨rfl, rfl⟩
  · rw [if_neg h]; exact ⟨rfl, rfl⟩

theorem finishLookup_keyOut (status : Status) (s1 : SourceState) (ran : Bool)
    (track_type : TrackType) :
    (finishLookup status s1 ran track_type).keyOut =
      (if (finishLookup status s1 ran track_type).status.error_code = ErrorCode.ok
       then mapFind (finishLookup status s1 ran track_type).state.encryption_key_map track_type
       else none) := by
  unfold finishLookup
  by_cases h : status.error_code = ErrorCode.ok
  · rw [if_pos h]
    cases hf : mapFind s1.encryption_key_map track_type with
    | none => simp
    | some k => simp [Status.OK, hf]
  · rw [if_neg h]
    simp [h]

/-! ### Claim theorems -/

/-- Claim C9: for every content identifier, `FillRequest` deterministically
builds exactly the JSON document with the base64 of the content id, an empty
policy, the three track entries SD, HD and AUDIO, and the single drm type
WIDEVINE (members in the sorted key order the dictionary maintains).  Being a
pure total function, the same content identifier always yields the same
output, and there is no failure path. -/
theorem fillRequest_canonical (content_id : Bytes) :
    fillRequestValue content_id = Json.obj
      [(strBytes "content_id", Json.str (base64EncodeBytes content_id)),
       (strBytes "drm_types", Json.arr [Json.str (strBytes "WIDEVINE")]),
       (strBytes "policy", Json.str (strBytes "")),
       (strBytes "tracks", Json.arr
         [Json.obj [(strBytes "type", Json.str (strBytes "SD"))],
          Json.obj [(strBytes "type", Json.str (strBytes "HD"))],
          Json.obj [(strBytes "type", Json.str (strBytes "AUDIO"))]])] := rfl

/-- Claim C10: whenever `GetKey` returns a non-OK status the caller-supplied
output parameter is never assigned (`keyOut = none`), and it is assigned
exactly on the success path, with the value found in the populated map. -/
theorem getKey_writes_key_only_on_success (jsonRead : Bytes → Option Json)
    (signer : Signer) (content_id : Bytes) (post : Nat → Bytes → Status × Bytes)
    (s : SourceState) (track_type : TrackType) :
    (getKey jsonRead signer content_id post s track_type).keyOut =
      (if (getKey jsonRead signer content_id post s track_type).status.error_code =
          ErrorCode.ok
       then mapFind
         (getKey jsonRead signer content_id post s track_type).state.encryption_key_map
         track_type
       else none) := by
  unfold getKey
  cases hkf : s.key_fetched with
  | true =>
    rw [if_pos rfl]
    exact finishLookup_keyOut Status.OK s false track_type
  | false =>
    rw [if_neg Bool.false_ne_true]
    by_cases hfr : (fetchKeys jsonRead signer content_id post
        s.encryption_key_map).status.error_code = ErrorCode.ok
    · rw [if_pos hfr]
      exact finishLookup_keyOut _ _ _ _
    · rw [if_neg hfr]
      exact finishLookup_keyOut _ _ _ _

/-- Claim C7: for every license document whose status string is not "OK",
`ExtractEncryptionKey` fails without touching the key map, and the failure is
classified transient exactly when the status equals "INTERNAL_ERROR". -/
theorem extract_nonOK_status_classification (jsonRead : Bytes → Option Json)
    (response : Bytes) (m : KeyMap) (st : Bytes)
    (hst : licenseStatus jsonRead response = some st)
    (hne : st ≠ kLicenseStatusOK) :
    (extractEncryptionKey jsonRead response m).success = false ∧
    (extractEncryptionKey jsonRead response m).map = m ∧
    ((extractEncryptionKey jsonRead response m).transient = true ↔
      st = kLicenseStatusTransientError) := by
  unfold licenseStatus at hst
  cases hr : jsonRead response with
  | none => rw [hr] at hst; cases hst
  | some root =>
    simp only [hr] at hst
    cases hdict : root.getDict? with
    | none => simp only [hdict] at hst; cases hst
    | some license_dict =>
      simp only [hdict] at hst
      unfold extractEncryptionKey
      simp only [hr, hdict, hst]
      rw [if_neg hne]
      simp [decide_eq_true_iff]

/-- Witness for C7 at a concrete transient-status document. -/
theorem extract_nonOK_status_classification_witness :
    (extractEncryptionKey c7Jr [0] []).success = false ∧
    (extractEncryptionKey c7Jr [0] []).map = [] ∧
    ((extractEncryptionKey c7Jr [0] []).transient = true ↔
      strBytes "INTERNAL_ERROR" = kLicenseStatusTransientError) :=
  extract_nonOK_status_classification c7Jr [0] [] (strBytes "INTERNAL_ERROR") rfl
    (by decide)

/-- Claim C8: inside any remaining iteration of the retry loop, a transport
failure makes `FetchKeys` return that status at once, and an undecodable
response makes it return a fatal server error at once: in both cases no sleep
is added to the trace and exactly the one `Post` of the current attempt is
counted, regardless of the remaining fuel. -/
theorem fetch_failures_abort_immediately (jsonRead : Bytes → Option Json)
    (post : Nat → Bytes → Status × Bytes) (message : Bytes) (fuel i sleep_duration : Nat)
    (m : KeyMap) (sleeps : List Nat) (posts : Nat) :
    ((post i message).1.error_code ≠ ErrorCode.ok →
      fetchLoop jsonRead post message (fuel + 1) i sleep_duration m sleeps posts =
        ⟨(post i message).1, m, sleeps, posts + 1⟩) ∧
    ((post i message).1.error_code = ErrorCode.ok →
      decodeResponse jsonRead (post i message).2 = none →
      fetchLoop jsonRead post message (fuel + 1) i sleep_duration m sleeps posts =
        ⟨⟨ErrorCode.serverError,
            strBytes "Failed to decode response " ++ quoteByte ++ (post i message).2 ++
              quoteByte ++ strBytes "."⟩,
          m, sleeps, posts + 1⟩) := by
  constructor
  · intro hfail
    simp only [fetchLoop]
    rw [if_neg hfail]
  · intro hok hdec
    simp only [fetchLoop]
    rw [if_pos hok]
    simp only [hdec]

/-- Witness for C8: a transport failure and a bad response, each aborting the
very first attempt with no sleep. -/
theorem fetch_failures_abort_immediately_witness :
    fetchLoop (fun _ => none) exFailPost [] 5 0 1000 [] [] 0 =
      ⟨⟨ErrorCode.serverError, []⟩, [], [], 1⟩ ∧
    fetchLoop (fun _ => none) (fun _ _ => (Status.OK, strBytes "bad")) [] 5 0 1000 [] [] 0 =
      ⟨⟨ErrorCode.serverError,
          strBytes "Failed to decode response " ++ quoteByte ++ strBytes "bad" ++
            quoteByte ++ strBytes "."⟩,
        [], [], 1⟩ :=
  ⟨(fetch_failures_abort_immediately (fun _ => none) exFailPost [] 4 0 1000 [] [] 0).1
      (by decide),
   (fetch_failures_abort_immediately (fun _ => none) (fun _ _ => (Status.OK, strBytes "bad"))
      [] 4 0 1000 [] [] 0).2 rfl rfl⟩

/-- Claim C6: for every signer and raw request document, when `SignRequest`
produces an envelope, base64-decoding its "request" member yields exactly the
byte sequence that was passed to `GenerateSignature` (the raw request). -/
theorem signRequest_signs_raw_request (signer : Signer) (request : Bytes) (env : Json)
    (hbytes : ∀ b ∈ request, b < 256)
    (henv : signRequestValue signer request = Except.ok env) :
    ∃ sig, signer.generateSignature request = some sig ∧
      jsonGetString env (strBytes "request") = some (base64EncodeBytes request) ∧
      base64DecodeBytes (base64EncodeBytes request) = some request := by
  cases hsig : signer.generateSignature request with
  | none => simp [signRequestValue, hsig] at henv
  | some sig =>
    refine ⟨sig, rfl, ?_, base64_roundtrip request hbytes⟩
    have henv2 : Json.obj (dictSet (dictSet (dictSet [] (strBytes "request")
        (Json.str (base64EncodeBytes request))) (strBytes "signature")
        (Json.str (base64EncodeBytes sig))) (strBytes "signer")
        (Json.str signer.signer_name)) = env := by
      have h2 := henv
      simp only [signRequestValue, hsig] at h2
      exact Except.ok.inj h2
    rw [← henv2]
    rfl

/-- Witness for C6 at a concrete signer and request. -/
theorem signRequest_signs_raw_request_witness :
    ∃ sig, exSigner.generateSignature [1, 2, 3] = some sig ∧
      jsonGetString (Json.obj
        [(strBytes "request", Json.str (base64EncodeBytes [1, 2, 3])),
         (strBytes "signature", Json.str (base64EncodeBytes [])),
         (strBytes "signer", Json.str [])]) (strBytes "request") =
        some (base64EncodeBytes [1, 2, 3]) ∧
      base64DecodeBytes (base64EncodeBytes [1, 2, 3]) = some [1, 2, 3] :=
  signRequest_signs_raw_request exSigner [1, 2, 3] _ (by decide) rfl

/-- Claim C4: when the signer succeeds and every transport reply is OK at the
transport level and decodes to a license document whose status is the
transient sentinel, `FetchKeys` performs exactly 5 posts, sleeps exactly four
times with durations 1000, 2000, 4000 and 8000 ms in that order (none after
the final attempt), and returns the fatal exhausted-retries error. -/
theorem fetchKeys_exhausts_transient_retries (jsonRead : Bytes → Option Json)
    (signer : Signer) (content_id : Bytes) (post : Nat → Bytes → Status × Bytes)
    (m : KeyMap)
    (hsign : ∃ sig, signer.generateSignature (fillRequest content_id) = some sig)
    (hpost : ∀ i body, (post i body).1.error_code = ErrorCode.ok ∧
      ∃ lic, decodeResponse jsonRead (post i body).2 = some lic ∧
        licenseStatus jsonRead lic = some kLicenseStatusTransientError) :
    fetchKeys jsonRead signer content_id post m =
      ⟨⟨ErrorCode.serverError, strBytes "Failed to recover from server internal error."⟩,
        m, [1000, 2000, 4000, 8000], 5⟩ := by
  obtain ⟨sig, hsig⟩ := hsign
  unfold fetchKeys signRequest signRequestValue
  simp only [hsig]
  rw [fetchLoop_all_transient jsonRead post _ hpost kNumTransientErrorRetries 0
    kFirstRetryDelayMilliseconds m [] 0 rfl]
  rfl

/-- Witness for C4: a scripted transport that always answers with the
transient-status license. -/
theorem fetchKeys_exhausts_transient_retries_witness :
    fetchKeys c4Jr exSigner [] (fun _ _ => (Status.OK, strBytes "R")) [] =
      ⟨⟨ErrorCode.serverError, strBytes "Failed to recover from server internal error."⟩,
        [], [1000, 2000, 4000, 8000], 5⟩ :=
  fetchKeys_exhausts_transient_retries c4Jr exSigner []
    (fun _ _ => (Status.OK, strBytes "R")) [] ⟨[], rfl⟩
    (fun _ _ => ⟨rfl, [76], rfl, rfl⟩)

/-- Counterexample to Claim C1 as stated: on an OK license whose second track
entry is missing its key, extraction fails but the key of the first entry has
already been committed, so the map is left holding a proper non-empty subset
of the track types, not its pre-call contents. -/
theorem extract_partial_commit_counterexample :
    (extractEncryptionKey (fun _ => some c1Doc) [] []).success = false ∧
    (extractEncryptionKey (fun _ => some c1Doc) [] []).map = [(TrackType.sd, exKey)] := by
  decide

/-- Claim C1 as amended: commitment is per track, not atomic.  What does hold:
the map only ever grows (every entry present on entry to `ExtractEncryptionKey`
is still present, unchanged, on exit), and a transient-classified failure
leaves the map exactly as it was; but a failure in the middle of the track
loop retains the entries committed before it (see the counterexample). -/
theorem extract_map_extension (jsonRead : Bytes → Option Json) (response : Bytes)
    (m : KeyMap) :
    (∀ t ek, mapFind m t = some ek →
      mapFind (extractEncryptionKey jsonRead response m).map t = some ek) ∧
    ((extractEncryptionKey jsonRead response m).transient = true →
      (extractEncryptionKey jsonRead response m).map = m) := by
  rcases extract_shape jsonRead response m with ⟨-, hmap⟩ | ⟨tracks, -, -, htr, hmap⟩
  · exact ⟨fun t ek h => by rw [hmap]; exact h, fun _ => hmap⟩
  · constructor
    · intro t ek h
      rw [hmap]
      exact processTracks_mono tracks m t ek h
    · intro hcontra
      rw [htr] at hcontra
      exact absurd hcontra Bool.false_ne_true

/-- Witness for the amended C1 at a transient-status document over a non-empty
map. -/
theorem extract_map_extension_witness :
    mapFind (extractEncryptionKey (fun _ => some c1TransientDoc) [] c1Map).map
      TrackType.sd = some ⟨[1], [2], [3]⟩ ∧
    (extractEncryptionKey (fun _ => some c1TransientDoc) [] c1Map).map = c1Map :=
  ⟨(extract_map_extension (fun _ => some c1TransientDoc) [] c1Map).1 TrackType.sd
      ⟨[1], [2], [3]⟩ rfl,
   (extract_map_extension (fun _ => some c1TransientDoc) [] c1Map).2 rfl⟩

/-- Counterexample to Claim C2 as stated: after a first `GetKey` whose fetch
run failed, a second `GetKey` on the resulting state invokes `FetchKeys`
again, because `key_fetched_` is set only on success. -/
theorem getKey_refetch_after_failure_counterexample :
    (getKey (fun _ => none) exSigner [] exFailPost ⟨false, []⟩
      TrackType.sd).status.error_code ≠ ErrorCode.ok ∧
    (getKey (fun _ => none) exSigner [] exFailPost
      ((getKey (fun _ => none) exSigner [] exFailPost ⟨false, []⟩ TrackType.sd).state)
      TrackType.sd).ranFetch = true := by decide

/-- Claim C2 as amended: only a successful fetch outcome is cached.  When
`key_fetched_` is already set, `GetKey` serves the lookup without invoking
`FetchKeys` and leaves the state untouched; when it is unset, `FetchKeys` runs
and the resulting state has `key_fetched_` set exactly when that run returned
OK — so a failed run is re-attempted by the next call. -/
theorem getKey_caches_only_success (jsonRead : Bytes → Option Json) (signer : Signer)
    (content_id : Bytes) (post : Nat → Bytes → Status × Bytes) (s : SourceState)
    (track_type : TrackType) :
    (s.key_fetched = true →
      (getKey jsonRead signer content_id post s track_type).ranFetch = false ∧
      (getKey jsonRead signer content_id post s track_type).state = s) ∧
    (s.key_fetched = false →
      (getKey jsonRead signer content_id post s track_type).ranFetch = true ∧
      ((getKey jsonRead signer content_id post s track_type).state.key_fetched = true ↔
        (fetchKeys jsonRead signer content_id post s.encryption_key_map).status.error_code =
          ErrorCode.ok)) := by
  constructor
  · intro hk
    unfold getKey
    rw [hk, if_pos rfl]
    exact ⟨(finishLookup_state Status.OK s false track_type).2,
      (finishLookup_state Status.OK s false track_type).1⟩
  · intro hk
    unfold getKey
    rw [hk, if_neg Bool.false_ne_true]
    by_cases hfr : (fetchKeys jsonRead signer content_id post
        s.encryption_key_map).status.error_code = ErrorCode.ok
    · rw [if_pos hfr]
      refine ⟨(finishLookup_state _ _ _ _).2, ?_⟩
      rw [(finishLookup_state _ _ _ _).1]
      simp [hfr]
    · rw [if_neg hfr]
      refine ⟨(finishLookup_state _ _ _ _).2, ?_⟩
      rw [(finishLookup_state _ _ _ _).1]
      simp [hfr]

/-- Witness for the amended C2: an already-fetched state is served without a
new fetch, and an unset state triggers exactly one run whose failure leaves
the flag unset. -/
theorem getKey_caches_only_success_witness :
    ((getKey (fun _ => none) exSigner [] exFailPost ⟨true, []⟩ TrackType.sd).ranFetch =
        false ∧
      (getKey (fun _ => none) exSigner [] exFailPost ⟨true, []⟩ TrackType.sd).state =
        ⟨true, []⟩) ∧
    ((getKey (fun _ => none) exSigner [] exFailPost ⟨false, []⟩ TrackType.sd).ranFetch =
        true ∧
      ((getKey (fun _ => none) exSigner [] exFailPost ⟨false, []⟩
          TrackType.sd).state.key_fetched = true ↔
        (fetchKeys (fun _ => none) exSigner [] exFailPost []).status.error_code =
          ErrorCode.ok)) :=
  ⟨(getKey_caches_only_success (fun _ => none) exSigner [] exFailPost ⟨true, []⟩
      TrackType.sd).1 rfl,
   (getKey_caches_only_success (fun _ => none) exSigner [] exFailPost ⟨false, []⟩
      TrackType.sd).2 rfl⟩

/-- Counterexample to Claim C3 as stated: a track entry whose label maps to no
valid track type does not make extraction fail — the entry is processed under
the UNKNOWN sentinel (the `DCHECK` is a no-op in release builds) and the whole
extraction succeeds. -/
theorem extract_unmapped_type_counterexample :
    entryTrackType (exTrackEntry "FOO") = some TrackType.unknown ∧
    (extractEncryptionKey (fun _ => some c3Doc) [] []).success = true := by decide

/-- Claim C3 as amended: the duplicate half holds — whenever extraction
succeeds, the track types the entries map to are pairwise distinct, so a
license with two entries of the same type (for example two "SD" entries)
never extracts successfully; the unmapped-label half is corrected by the
counterexample (such an entry is handled as UNKNOWN, not rejected). -/
theorem extract_success_track_types_nodup (jsonRead : Bytes → Option Json)
    (response : Bytes) (m : KeyMap) (ts : List Json)
    (hts : licenseTracks jsonRead response = some ts)
    (hsucc : (extractEncryptionKey jsonRead response m).success = true) :
    (ts.map entryTrackType).Nodup := by
  rcases extract_shape jsonRead response m with ⟨hfail, -⟩ | ⟨tracks, htracks, hsu, -, -⟩
  · rw [hfail] at hsucc
    exact absurd hsucc Bool.false_ne_true
  · rw [hts] at htracks
    have hteq : ts = tracks := Option.some.inj htracks
    subst hteq
    exact (processTracks_success_spec ts m (hsu.symm.trans hsucc)).2

/-- Witness for the amended C3 at a fully valid license. -/
theorem extract_success_track_types_nodup_witness :
    (([exTrackEntry "SD", exTrackEntry "HD", exTrackEntry "AUDIO"]).map
      entryTrackType).Nodup :=
  extract_success_track_types_nodup (fun _ => some c3GoodDoc) [] []
    [exTrackEntry "SD", exTrackEntry "HD", exTrackEntry "AUDIO"] rfl (by decide)

/-- Counterexample to Claim C5 as stated: a "pssh" list whose size is **two**
does not make extraction fail — only entry 0 is read (the size check is a
debug-only `DCHECK`), so the whole extraction succeeds. -/
theorem extract_multi_pssh_counterexample :
    (extractEncryptionKey (fun _ => some c5Doc) [] []).success = true := by decide

/-- Claim C5 as amended: `GetPsshData` requires the "pssh" field to be a
present, non-empty list and examines exactly its first entry: a missing list,
an empty list, a first-entry drm type other than WIDEVINE, or malformed
base64 data each fail extraction; entries past the first are ignored (the
size-equals-one requirement is only a debug assertion). -/
theorem getPsshData_first_entry_requirements (track_dict : JDict) :
    (dictGetList track_dict (strBytes "pssh") = none → getPsshData track_dict = none) ∧
    (dictGetList track_dict (strBytes "pssh") = some [] → getPsshData track_dict = none) ∧
    (∀ pssh_list pssh_dict drm_type,
      dictGetList track_dict (strBytes "pssh") = some pssh_list →
      listGetDictionary pssh_list 0 = some pssh_dict →
      dictGetString pssh_dict (strBytes "drm_type") = some drm_type →
      drm_type ≠ strBytes "WIDEVINE" → getPsshData track_dict = none) ∧
    (∀ pssh_list pssh_dict data_base64,
      dictGetList track_dict (strBytes "pssh") = some pssh_list →
      listGetDictionary pssh_list 0 = some pssh_dict →
      dictGetString pssh_dict (strBytes "data") = some data_base64 →
      base64DecodeBytes data_base64 = none → getPsshData track_dict = none) := by
  refine ⟨?_, ?_, ?_, ?_⟩
  · intro h
    unfold getPsshData
    simp only [h]
  · intro h
    unfold getPsshData
    simp [h, listGetDictionary]
  · intro pssh_list pssh_dict drm_type h1 h2 h3 h4
    unfold getPsshData
    simp only [h1, h2, h3]
    rw [if_neg h4]
  · intro pssh_list pssh_dict data_base64 h1 h2 h3 h4
    unfold getPsshData
    simp only [h1, h2]
    cases hdt : dictGetString pssh_dict (strBytes "drm_type") with
    | none => rfl
    | some drm_type =>
      by_cases hw : drm_type = strBytes "WIDEVINE"
      · simp [hw, h3, h4]
      · simp [hw]

/-- Witness for the amended C5: a single pssh entry with a foreign drm type is
rejected. -/
theorem getPsshData_first_entry_requirements_witness :
    getPsshData c5OtherDrmDict = none :=
  (getPsshData_first_entry_requirements c5OtherDrmDict).2.2.1 _ _ _ rfl rfl rfl
    (by decide)
